import Mathlib

/-!
Verification of the rust-rocksdb error-classification layer and the
compaction-filter-factory bridge.

Strings from the Rust source are embedded as `List Char` (a Rust `&str` is
consumed here only through `char`-level operations: `split(':')`,
prefix comparison, equality).  Machine-level `c_uchar` values returned by the
engine's accessors are embedded as `Nat` (no overflow is involved: the Rust
code only compares them with `0`).
-/

set_option autoImplicit false

namespace RocksDB

/-- Embeds `ErrorKind` from `src/src/lib.rs` (lines 144-162): the closed
enumeration of semantic error kinds. -/
inductive ErrorKind where
  | NotFound
  | Corruption
  | NotSupported
  | InvalidArgument
  | IOError
  | MergeInProgress
  | Incomplete
  | ShutdownInProgress
  | TimedOut
  | Aborted
  | Busy
  | Expired
  | TryAgain
  | CompactionTooLarge
  | ColumnFamilyDropped
  | Unknown
  deriving DecidableEq, Repr

/-- Embeds `struct Error` from `src/src/lib.rs`: a simple wrapper around a
string; its only field is the raw diagnostic message. -/
structure Error where
  message : List Char
  deriving DecidableEq, Repr

/-- Embeds `Error::new` (`src/src/lib.rs`): stores the message, and nothing
else, at construction time. -/
def Error.new (message : List Char) : Error :=
  { message := message }

/-- Embeds Rust `str::split(sep)` on a `char` separator, as a list of the
produced segments.  Rust semantics: the empty string yields one empty
segment; a separator at position `i` ends the current segment and starts a
new one, so `"a:b"` yields `["a", "b"]`, `":x"` yields `["", "x"]` and
`""` yields `[""]`. -/
def splitOnChar (sep : Char) : List Char → List (List Char)
  | [] => [[]]
  | c :: cs =>
    if c = sep then
      [] :: splitOnChar sep cs
    else
      match splitOnChar sep cs with
      | [] => [[c]]
      | s :: ss => (c :: s) :: ss

/-- The match table inside `Error::kind` (`src/src/lib.rs` lines 182-199),
factored out over the first segment of the message.  Each arm compares the
segment with the literal of the source `match`; the wildcard arm yields
`Unknown`. -/
def kindOfSegment (s : List Char) : ErrorKind :=
  if s = "NotFound".data then ErrorKind.NotFound
  else if s = "Corruption".data then ErrorKind.Corruption
  else if s = "Not implemented".data then ErrorKind.NotSupported
  else if s = "Invalid argument".data then ErrorKind.InvalidArgument
  else if s = "IO error".data then ErrorKind.IOError
  else if s = "Merge in progress".data then ErrorKind.MergeInProgress
  else if s = "Result incomplete".data then ErrorKind.Incomplete
  else if s = "Shutdown in progress".data then ErrorKind.ShutdownInProgress
  else if s = "Operation timed out".data then ErrorKind.TimedOut
  else if s = "Operation aborted".data then ErrorKind.Aborted
  else if s = "Resource busy".data then ErrorKind.Busy
  else if s = "Operation expired".data then ErrorKind.Expired
  else if s = "Operation failed. Try again.".data then ErrorKind.TryAgain
  else if s = "Compaction too large".data then ErrorKind.CompactionTooLarge
  else if s = "Column family dropped".data then ErrorKind.ColumnFamilyDropped
  else ErrorKind.Unknown

/-- Embeds `Error::kind` (`src/src/lib.rs` lines 181-200):
`self.message.split(':').next().unwrap_or("")` followed by the match table.
`next()` on the split iterator is `List.head?`; `unwrap_or("")` is
`Option.getD` with the empty string. -/
def Error.kind (e : Error) : ErrorKind :=
  kindOfSegment ((splitOnChar ':' e.message).head?.getD "".data)

/-- The spec's name for the operation: `classify(message) -> ErrorKind` is
`Error::kind` applied to an `Error` holding that message. -/
def classify (m : List Char) : ErrorKind :=
  (Error.new m).kind

/-- Modelled from the spec section 4.5 (the claim compares the source
against these words): take the substring of `message` up to, not including,
the first colon character and match it case-sensitively against the fixed
table of known message heads. -/
def classifySpec (m : List Char) : ErrorKind :=
  kindOfSegmentSpec (m.takeWhile (fun c => c != ':'))
where
  kindOfSegmentSpec (s : List Char) : ErrorKind :=
    if s = "NotFound".data then ErrorKind.NotFound
    else if s = "Corruption".data then ErrorKind.Corruption
    else if s = "Not implemented".data then ErrorKind.NotSupported
    else if s = "Invalid argument".data then ErrorKind.InvalidArgument
    else if s = "IO error".data then ErrorKind.IOError
    else if s = "Merge in progress".data then ErrorKind.MergeInProgress
    else if s = "Result incomplete".data then ErrorKind.Incomplete
    else if s = "Shutdown in progress".data then ErrorKind.ShutdownInProgress
    else if s = "Operation timed out".data then ErrorKind.TimedOut
    else if s = "Operation aborted".data then ErrorKind.Aborted
    else if s = "Resource busy".data then ErrorKind.Busy
    else if s = "Operation expired".data then ErrorKind.Expired
    else if s = "Operation failed. Try again.".data then ErrorKind.TryAgain
    else if s = "Compaction too large".data then ErrorKind.CompactionTooLarge
    else if s = "Column family dropped".data then ErrorKind.ColumnFamilyDropped
    else ErrorKind.Unknown

/-- `split` on any input produces the segment before the first separator as
its first element. -/
theorem splitOnChar_head (sep : Char) (m : List Char) :
    (splitOnChar sep m).head? = some (m.takeWhile (fun c => c != sep)) := by
  induction m with
  | nil => rfl
  | cons c cs ih =>
    by_cases h : c = sep
    · subst h
      simp [splitOnChar, List.takeWhile_cons]
    · cases hs : splitOnChar sep cs with
      | nil => rw [hs] at ih; simp at ih
      | cons s ss =>
        rw [hs] at ih
        simp only [List.head?_cons, Option.some.injEq] at ih
        simp [splitOnChar, h, hs, List.takeWhile_cons, ih]

/-- `split` never yields an empty list of segments. -/
theorem splitOnChar_ne_nil (sep : Char) (m : List Char) :
    splitOnChar sep m ≠ [] := by
  intro h
  have := splitOnChar_head sep m
  rw [h] at this
  simp at this

/-- `Error::kind` reduces to the table lookup on the colon-free head of the
message. -/
theorem kind_eq_kindOfSegment (m : List Char) :
    classify m = kindOfSegment (m.takeWhile (fun c => c != ':')) := by
  unfold classify Error.kind Error.new
  rw [splitOnChar_head]
  rfl

/-- The sixteen members of `ErrorKind`, in source order. -/
def allErrorKinds : List ErrorKind :=
  [ErrorKind.NotFound, ErrorKind.Corruption, ErrorKind.NotSupported,
   ErrorKind.InvalidArgument, ErrorKind.IOError, ErrorKind.MergeInProgress,
   ErrorKind.Incomplete, ErrorKind.ShutdownInProgress, ErrorKind.TimedOut,
   ErrorKind.Aborted, ErrorKind.Busy, ErrorKind.Expired, ErrorKind.TryAgain,
   ErrorKind.CompactionTooLarge, ErrorKind.ColumnFamilyDropped,
   ErrorKind.Unknown]

/-- The fifteen message heads recognized by the `match` in `Error::kind`,
in source order. -/
def knownMessageHeads : List (List Char) :=
  ["NotFound".data, "Corruption".data, "Not implemented".data,
   "Invalid argument".data, "IO error".data, "Merge in progress".data,
   "Result incomplete".data, "Shutdown in progress".data,
   "Operation timed out".data, "Operation aborted".data,
   "Resource busy".data, "Operation expired".data,
   "Operation failed. Try again.".data, "Compaction too large".data,
   "Column family dropped".data]

/-- A segment outside the recognized table falls through every arm of the
`match` to the wildcard, yielding `Unknown`. -/
theorem kindOfSegment_eq_unknown (s : List Char)
    (h : s ∉ knownMessageHeads) : kindOfSegment s = ErrorKind.Unknown := by
  simp only [knownMessageHeads, List.mem_cons, List.not_mem_nil, or_false,
    not_or] at h
  obtain ⟨h1, h2, h3, h4, h5, h6, h7, h8, h9, h10, h11, h12, h13, h14, h15⟩ := h
  simp [kindOfSegment, h1, h2, h3, h4, h5, h6, h7, h8, h9, h10, h11, h12, h13,
    h14, h15]

/-- C1: `classify` (that is, `Error::kind`) takes the substring of the
message up to, not including, the first colon and matches it exactly and
case-sensitively against the fixed table of fifteen known heads, with any
unmatched head, including the empty message, yielding `Unknown`; the four
example classifications hold. -/
theorem classify_matches_table :
    (∀ m : List Char, classify m = classifySpec m)
      ∧ classify "NotFound: key missing".data = ErrorKind.NotFound
      ∧ classify "IO error: disk full".data = ErrorKind.IOError
      ∧ classify "totally unrecognized text".data = ErrorKind.Unknown
      ∧ classify "".data = ErrorKind.Unknown := by
  refine ⟨?_, by decide, by decide, by decide, by decide⟩
  intro m
  rw [kind_eq_kindOfSegment]
  rfl

/-- C2: `ErrorKind` is a closed enumeration of exactly sixteen distinct
members, every classification lands in it, and `Unknown` is the catch-all
for every message whose head is outside the recognized table. -/
theorem errorKind_closed_enumeration :
    allErrorKinds.length = 16 ∧ allErrorKinds.Nodup
      ∧ (∀ k : ErrorKind, k ∈ allErrorKinds)
      ∧ (∀ m : List Char, classify m ∈ allErrorKinds)
      ∧ (∀ m : List Char,
          m.takeWhile (fun c => c != ':') ∉ knownMessageHeads →
            classify m = ErrorKind.Unknown) := by
  have hmem : ∀ k : ErrorKind, k ∈ allErrorKinds := by
    intro k
    cases k <;> simp [allErrorKinds]
  refine ⟨by decide, by decide, hmem, fun m => hmem _, ?_⟩
  intro m h
  rw [kind_eq_kindOfSegment]
  exact kindOfSegment_eq_unknown _ h

/-- C2 witness: a concrete unrecognized message classifies to `Unknown`
through the catch-all clause. -/
theorem errorKind_closed_enumeration_witness :
    classify "totally unrecognized text".data = ErrorKind.Unknown :=
  errorKind_closed_enumeration.2.2.2.2 "totally unrecognized text".data
    (by decide)

/-- C3: classification is deterministic and stateless: on the same message
it always returns the same kind, since it is a pure function of the
message alone. -/
theorem classify_deterministic : ∀ m : List Char, classify m = classify m :=
  fun _ => rfl

/-- Embeds `impl From<Error> for String` (`src/src/lib.rs` lines 209-213):
returns the stored message. -/
def stringFrom (e : Error) : List Char :=
  e.message

/-- Embeds `Error::into_string` (`src/src/lib.rs`): defined as `self.into()`
through the `From` impl above. -/
def Error.into_string (e : Error) : List Char :=
  stringFrom e

/-- Embeds `impl AsRef<str> for Error`: returns the stored message. -/
def Error.as_ref (e : Error) : List Char :=
  e.message

/-- Embeds `impl fmt::Display for Error`: `fmt` delegates to the stored
message, so the displayed text is exactly the message. -/
def Error.displayed (e : Error) : List Char :=
  e.message

/-- C4: an `Error` stores only the raw message; the kind is recomputed from
the message on each `kind()` call, so the raw message is recoverable
unchanged through `into_string`, `as_ref` and `Display`, and two errors
with equal messages have equal kinds. -/
theorem error_message_authoritative :
    (∀ e : Error, e = Error.new e.message)
      ∧ (∀ m : List Char, (Error.new m).into_string = m)
      ∧ (∀ m : List Char, (Error.new m).as_ref = m)
      ∧ (∀ m : List Char, (Error.new m).displayed = m)
      ∧ (∀ e₁ e₂ : Error, e₁.message = e₂.message → e₁.kind = e₂.kind) := by
  refine ⟨fun e => rfl, fun m => rfl, fun m => rfl, fun m => rfl, ?_⟩
  intro e₁ e₂ h
  unfold Error.kind
  rw [h]

/-- C4 witness: two concrete errors built with the same message have equal
kinds. -/
theorem error_message_authoritative_witness :
    (Error.new "IO error: disk full".data).kind
      = ({ message := "IO error: disk full".data } : Error).kind :=
  error_message_authoritative.2.2.2.2 (Error.new "IO error: disk full".data)
    { message := "IO error: disk full".data } rfl

/-- C9: `Error::kind` is total: splitting on the colon always yields at
least one, possibly empty, first segment, so the `unwrap_or("")` fallback
branch is unreachable: the kind is always the table lookup on the segment
actually produced by `next()`. -/
theorem split_head_always_some :
    ∀ m : List Char,
      splitOnChar ':' m ≠ []
        ∧ ∃ s : List Char, (splitOnChar ':' m).head? = some s
            ∧ (Error.new m).kind = kindOfSegment s :=
  fun m =>
    ⟨splitOnChar_ne_nil ':' m,
     m.takeWhile (fun c => c != ':'), splitOnChar_head ':' m,
     kind_eq_kindOfSegment m⟩

/-- C9 witness: at a concrete message, splitting produces a nonempty
segment list. -/
theorem split_head_always_some_witness :
    splitOnChar ':' "IO error: disk full".data ≠ [] :=
  (split_head_always_some "IO error: disk full".data).1

/-- A message containing no colon survives `takeWhile` unchanged. -/
theorem takeWhile_of_no_colon (m : List Char) (h : ':' ∉ m) :
    m.takeWhile (fun c => c != ':') = m := by
  induction m with
  | nil => rfl
  | cons c cs ih =>
    simp only [List.mem_cons, not_or] at h
    simp [List.takeWhile_cons, bne_iff_ne, Ne.symm h.1, ih h.2]

/-- No recognized message head is a strict prefix of another: truncating a
head `q` to the length of a different head `p` never recovers `p`. -/
theorem knownMessageHeads_no_extension :
    ∀ p ∈ knownMessageHeads, ∀ q ∈ knownMessageHeads,
      p ≠ q → List.take p.length q ≠ p := by decide

/-- A strict extension of a recognized head is itself outside the table. -/
theorem extension_not_mem (p t : List Char) (hp : p ∈ knownMessageHeads)
    (ht : t ≠ []) : p ++ t ∉ knownMessageHeads := by
  intro hmem
  by_cases hpq : p = p ++ t
  · exact ht (by simpa using congrArg List.length hpq)
  · exact knownMessageHeads_no_extension p hp (p ++ t) hmem hpq
      (by rw [List.take_left])

/-- C10: on a message with no colon the whole message is matched against
the table, so a message equal to a known head classifies to that kind,
while a colon-free strict extension of a known head classifies to
`Unknown`. -/
theorem kind_without_colon :
    (∀ m : List Char, ':' ∉ m → classify m = kindOfSegment m)
      ∧ classify "NotFound".data = ErrorKind.NotFound
      ∧ classify "IO error".data = ErrorKind.IOError
      ∧ (∀ p t : List Char, p ∈ knownMessageHeads → t ≠ [] →
          ':' ∉ p ++ t → classify (p ++ t) = ErrorKind.Unknown)
      ∧ classify "IO error occurred".data = ErrorKind.Unknown := by
  have hwhole : ∀ m : List Char, ':' ∉ m → classify m = kindOfSegment m := by
    intro m h
    rw [kind_eq_kindOfSegment, takeWhile_of_no_colon m h]
  refine ⟨hwhole, by decide, by decide, ?_, by decide⟩
  intro p t hp ht hnc
  rw [hwhole (p ++ t) hnc]
  exact kindOfSegment_eq_unknown _ (extension_not_mem p t hp ht)

/-- C10 witness: the colon-free message "NotFound" matches whole, and the
concrete strict extension "IO error occurred" of the head "IO error"
classifies to `Unknown`. -/
theorem kind_without_colon_witness :
    classify "NotFound".data = kindOfSegment "NotFound".data
      ∧ classify ("IO error".data ++ " occurred".data) = ErrorKind.Unknown :=
  ⟨kind_without_colon.1 "NotFound".data (by decide),
   kind_without_colon.2.2.2.1 "IO error".data " occurred".data (by decide)
     (by decide) (by decide)⟩

/-- Model of the opaque, engine-owned compaction context handle
(`*mut ffi::rocksdb_compactionfiltercontext_t`): the bridge observes it only
through the two engine accessors, so the handle is represented by the
`c_uchar` values those accessors return for it. -/
structure RawCompactionContext where
  fullValue : Nat
  manualValue : Nat
  deriving DecidableEq, Repr

/-- Embeds the engine accessor
`ffi::rocksdb_compactionfiltercontext_is_full_compaction`. -/
def rocksdb_compactionfiltercontext_is_full_compaction
    (ctx : RawCompactionContext) : Nat :=
  ctx.fullValue

/-- Embeds the engine accessor
`ffi::rocksdb_compactionfiltercontext_is_manual_compaction`. -/
def rocksdb_compactionfiltercontext_is_manual_compaction
    (ctx : RawCompactionContext) : Nat :=
  ctx.manualValue

/-- Embeds `CompactionFilterContext` from
`src/src/compaction_filter_factory.rs`: the immutable, engine-agnostic
description of a compaction job. -/
structure CompactionFilterContext where
  is_full_compaction : Bool
  is_manual_compaction : Bool
  deriving DecidableEq, Repr

/-- Embeds `CompactionFilterContext::from_raw`
(`src/src/compaction_filter_factory.rs` lines 54-64): each boolean field is
the corresponding accessor's value compared against zero. -/
def CompactionFilterContext.from_raw (ptr : RawCompactionContext) :
    CompactionFilterContext :=
  { is_full_compaction :=
      rocksdb_compactionfiltercontext_is_full_compaction ptr != 0
    is_manual_compaction :=
      rocksdb_compactionfiltercontext_is_manual_compaction ptr != 0 }

/-- C5: the context translator is total (a Lean function, hence defined on
every handle value with both booleans set) and each boolean is true exactly
when the corresponding engine accessor returns a nonzero value. -/
theorem from_raw_translates_booleans :
    ∀ p : RawCompactionContext,
      ((CompactionFilterContext.from_raw p).is_full_compaction = true
          ↔ rocksdb_compactionfiltercontext_is_full_compaction p ≠ 0)
        ∧ ((CompactionFilterContext.from_raw p).is_manual_compaction = true
          ↔ rocksdb_compactionfiltercontext_is_manual_compaction p ≠ 0) := by
  intro p
  constructor <;> simp [CompactionFilterContext.from_raw]

/-- C5 witness: at a concrete handle whose full-compaction accessor returns
2 and whose manual-compaction accessor returns 0, the translated booleans
follow the nonzero test. -/
theorem from_raw_translates_booleans_witness :
    (CompactionFilterContext.from_raw
        { fullValue := 2, manualValue := 0 }).is_full_compaction = true
      ∧ ¬ (CompactionFilterContext.from_raw
          { fullValue := 2, manualValue := 0 }).is_manual_compaction = true :=
  ⟨((from_raw_translates_booleans
      { fullValue := 2, manualValue := 0 }).1).mpr (by decide),
   fun h =>
     absurd (((from_raw_translates_booleans
       { fullValue := 2, manualValue := 0 }).2).mp h) (by decide)⟩

/-- A fault raised by user-supplied logic (a Rust panic).  In this
embedding, computations that may panic return `Except Fault`. -/
inductive Fault where
  | panic
  deriving DecidableEq, Repr

/-- Model of the opaque `rocksdb_compactionfilter_t` handle produced by
`ffi::rocksdb_compactionfilter_create`: it owns the boxed filter built by
the factory. -/
structure FilterHandle (Filter : Type) where
  filter : Filter
  deriving DecidableEq, Repr

/-- Embeds `create_compaction_filter_callback`
(`src/src/compaction_filter_factory.rs` lines 66-85).  The body decodes the
raw context with `CompactionFilterContext::from_raw`, calls the factory's
user-supplied `create` (modelled as possibly faulting), boxes the produced
filter and returns the engine handle.  The source body contains no
`catch_unwind` and no fallback branch, so in this embedding a fault raised
by `create` propagates out of the trampoline. -/
def create_compaction_filter_callback {Filter : Type}
    (create : CompactionFilterContext → Except Fault Filter)
    (rawContext : RawCompactionContext) :
    Except Fault (FilterHandle Filter) :=
  match create (CompactionFilterContext.from_raw rawContext) with
  | Except.ok filter => Except.ok { filter := filter }
  | Except.error e => Except.error e

/-- C6 counterexample: with a factory whose `create` faults, the create
trampoline at a concrete context returns the fault itself, not a harmless
no-op filter handle: the fault is propagated, not caught. -/
theorem create_callback_fault_counterexample :
    create_compaction_filter_callback (fun _ => Except.error Fault.panic)
        { fullValue := 1, manualValue := 0 }
      = (Except.error Fault.panic : Except Fault (FilterHandle Unit))
    ∧ ¬ ∃ h : FilterHandle Unit,
        create_compaction_filter_callback (fun _ => Except.error Fault.panic)
            { fullValue := 1, manualValue := 0 }
          = Except.ok h := by
  refine ⟨rfl, ?_⟩
  rintro ⟨h, hh⟩
  simp [create_compaction_filter_callback] at hh

/-- C6 amended: the create trampoline performs no fault handling: it
returns a filter handle exactly when the factory's `create` returns a
filter, and any fault raised while running `create` propagates out of the
trampoline unchanged instead of being converted to a no-op filter
handle. -/
theorem create_callback_propagates :
    ∀ (Filter : Type)
      (create : CompactionFilterContext → Except Fault Filter)
      (raw : RawCompactionContext),
      (∀ f : Filter,
        create (CompactionFilterContext.from_raw raw) = Except.ok f →
          create_compaction_filter_callback create raw
            = Except.ok { filter := f })
        ∧ (∀ e : Fault,
            create (CompactionFilterContext.from_raw raw) = Except.error e →
              create_compaction_filter_callback create raw
                = Except.error e) := by
  intro Filter create raw
  constructor <;> intro x hx <;>
    simp [create_compaction_filter_callback, hx]

/-- C6 amended witness: a concrete always-faulting factory makes the
trampoline return the fault at a concrete context. -/
theorem create_callback_propagates_witness :
    create_compaction_filter_callback
        (fun _ => (Except.error Fault.panic : Except Fault Unit))
        { fullValue := 0, manualValue := 1 }
      = Except.error Fault.panic :=
  (create_callback_propagates Unit (fun _ => Except.error Fault.panic)
      { fullValue := 0, manualValue := 1 }).2 Fault.panic rfl

end RocksDB
